import Mathlib

/-!
Shallow embedding of the study-buddy backend (FastAPI/SQLAlchemy handlers in
`backend/app/api/`) and proofs about its scoring and aggregation logic.

Conventions of the embedding:
* database rows become Lean structures; the record store for one user becomes
  an explicit list of rows in insertion (= creation-time) order;
* Python floats are modelled as exact rationals (`ℚ`): every arithmetic
  operation involved is a sum, product or division of finitely many values;
* timestamps are seconds-since-epoch naturals (`ℕ`);
* nullable columns become `Option`; Python truthiness of an optional string
  (`None` and `""` falsy) is modelled explicitly;
* handlers that raise `HTTPException` before mutating anything become
  `Except String` values; an `error` result leaves the store unchanged.
-/

namespace StudyBuddy

/-- One row of the `assessments` table, restricted to the columns the
analytics handlers read: `score_percentage`, `is_completed`, `created_at`. -/
structure AssessmentRow where
  score_percentage : ℚ
  is_completed : Bool
  created_at : ℕ
deriving DecidableEq, Repr

/-- The filter applied by `get_analytics_overview` in `analytics.py`:
completed assessments whose `created_at` lies in the window
`[start_date, now]`.  The store list is kept in insertion order, which for
assessments coincides with creation-time order. -/
def completedInWindow (rows : List AssessmentRow) (start_date : ℕ) :
    List AssessmentRow :=
  rows.filter (fun a => a.is_completed && decide (start_date ≤ a.created_at))

/-- `analytics.py` line 73:
`average_score = sum([a.score_percentage for a in assessments]) / len(assessments) if assessments else 0`. -/
def overview_average_score (rows : List AssessmentRow) (start_date : ℕ) : ℚ :=
  let assessments := completedInWindow rows start_date
  if assessments.isEmpty then 0
  else (assessments.map (·.score_percentage)).sum / (assessments.length : ℚ)

/-- `analytics.py` lines 84–93: the two-bucket improvement rate over the
(already filtered) assessment list. -/
def improvement_rate (assessments : List AssessmentRow) : ℚ :=
  if 2 ≤ assessments.length then
    let first_half := assessments.take (assessments.length / 2)
    let second_half := assessments.drop (assessments.length / 2)
    let first_avg := (first_half.map (·.score_percentage)).sum / (first_half.length : ℚ)
    let second_avg := (second_half.map (·.score_percentage)).sum / (second_half.length : ℚ)
    if 0 < first_avg then (second_avg - first_avg) / first_avg * 100 else 0
  else 0

/-- The `improvement_rate` field of the overview response: the two-bucket
trend over the completed assessments in the window. -/
def overview_improvement_rate (rows : List AssessmentRow) (start_date : ℕ) : ℚ :=
  improvement_rate (completedInWindow rows start_date)

/-- Arithmetic mean of a list of rationals, as the spec words it. -/
def listMean (xs : List ℚ) : ℚ := xs.sum / (xs.length : ℚ)

/-- `assessments.py` lines 443–454: closed-form least-squares slope of the
score list against the index sequence `0..n-1`, with the `n ≤ 1` guard. -/
def improvement_trend (scores : List ℚ) : ℚ :=
  let n := scores.length
  if 1 < n then
    let x_sum : ℚ := ((List.range n).map (fun i : ℕ => (i : ℚ))).sum
    let y_sum : ℚ := scores.sum
    let xy_sum : ℚ := (scores.enum.map (fun p => (p.1 : ℚ) * p.2)).sum
    let x_squared_sum : ℚ := ((List.range n).map (fun i : ℕ => (i : ℚ) * i)).sum
    ((n : ℚ) * xy_sum - x_sum * y_sum) / ((n : ℚ) * x_squared_sum - x_sum * x_sum)
  else 0

/-! ### Assessments: start, submit, grading (`assessments.py`) -/

/-- One row of the `questions` table, restricted to the columns
`submit_assessment` reads.  `correct_answer` is required by the creation
endpoint (`QuestionCreate.correct_answer : str`), so it is a plain string. -/
structure Question where
  id : ℕ
  correct_answer : String
  points_possible : ℚ
deriving DecidableEq, Repr

/-- The request-body item `AnswerSubmission`: both text fields are optional. -/
structure AnswerSubmission where
  question_id : ℕ
  answer_text : Option String
  selected_option : Option String
deriving DecidableEq, Repr

/-- One row of the `answers` table as written by `submit_assessment`. -/
structure Answer where
  assessment_id : ℕ
  question_id : ℕ
  user_id : ℕ
  answer_text : Option String
  selected_option : Option String
  points_possible : ℚ
  is_correct : Bool
  points_earned : ℚ
deriving DecidableEq, Repr

/-- The columns of an `assessments` row touched by `start_assessment` and
`submit_assessment`. -/
structure Assessment where
  status : String
  start_time : Option ℕ
  end_time : Option ℕ
  is_completed : Bool
  questions_answered : ℕ
  correct_answers : ℕ
  score_percentage : Option ℚ
  time_taken_minutes : Option ℚ
deriving DecidableEq, Repr

/-- The running aggregates of a `users` row mutated by session completion and
assessment submission. -/
structure User where
  total_study_time_minutes : ℕ
  total_assessments_completed : ℕ
  average_score : ℚ
deriving DecidableEq, Repr

/-- Python truthiness of an optional string: `None` and `""` are falsy. -/
def pyTruthy : Option String → Bool
  | none => false
  | some s => !(s == "")

/-- Python `a or b` on optional strings: yields `b` when `a` is falsy. -/
def pyOr (a b : Option String) : Option String :=
  if pyTruthy a then a else b

/-- Python `str.strip()`: drop leading and trailing whitespace characters. -/
def pyStrip (s : String) : String :=
  ⟨((s.data.dropWhile Char.isWhitespace).reverse.dropWhile
      Char.isWhitespace).reverse⟩

/-- Python `str.lower()` (ASCII case folding). -/
def pyLower (s : String) : String := ⟨s.data.map Char.toLower⟩

/-- `assessments.py` lines 297–306: the graded verdict for one submitted
answer against its question.  `user_answer = answer_data.answer_text or
answer_data.selected_option`; the answer is correct exactly when
`user_answer` is truthy and its stripped, lowercased text equals the
stripped, lowercased `correct_answer`. -/
def gradedCorrect (q : Question) (ad : AnswerSubmission) : Bool :=
  match pyOr ad.answer_text ad.selected_option with
  | none => false
  | some s =>
      !(s == "") && (pyLower (pyStrip s) == pyLower (pyStrip q.correct_answer))

/-- `question_dict.get(answer_data.question_id)`: lookup among the
assessment's questions by id (`id` is the table's primary key, so the ids in
the list are distinct and first-match agrees with the Python dict). -/
def findQuestion (questions : List Question) (qid : ℕ) : Option Question :=
  questions.find? (fun q => q.id == qid)

/-- The mutable accumulators of the submission loop. -/
structure GradingState where
  answers : List Answer
  correct_answers : ℕ
  total_points : ℚ
  earned_points : ℚ
deriving DecidableEq, Repr

def initGrading : GradingState := ⟨[], 0, 0, 0⟩

/-- The body of the `for answer_data in submission.answers` loop of
`submit_assessment`: an answer with an unknown `question_id` is skipped
(`continue`); otherwise an `Answer` row is created, graded, and the
accumulators are advanced. -/
def processAnswer (assessment_id user_id : ℕ) (questions : List Question)
    (st : GradingState) (ad : AnswerSubmission) : GradingState :=
  match findQuestion questions ad.question_id with
  | none => st
  | some q =>
    let correct := gradedCorrect q ad
    let answer : Answer :=
      { assessment_id := assessment_id
        question_id := ad.question_id
        user_id := user_id
        answer_text := ad.answer_text
        selected_option := ad.selected_option
        points_possible := q.points_possible
        is_correct := correct
        points_earned := if correct then q.points_possible else 0 }
    { answers := st.answers ++ [answer]
      correct_answers := st.correct_answers + (if correct then 1 else 0)
      total_points := st.total_points + q.points_possible
      earned_points := st.earned_points + (if correct then q.points_possible else 0) }

/-- `submit_assessment` (`assessments.py` lines 246–340) for an assessment
owned by the caller: rejected unless `status == "in_progress"`; otherwise the
answers are graded, the assessment row is finalized and the user's running
aggregates are advanced.  Returns the updated assessment row, the created
answer rows, and the updated user row. -/
def submit_assessment (assessment_id user_id : ℕ) (a : Assessment)
    (questions : List Question) (submission : List AnswerSubmission)
    (user : User) (now : ℕ) :
    Except String (Assessment × List Answer × User) :=
  if a.status ≠ "in_progress" then .error "Assessment is not in progress"
  else
    let st := submission.foldl (processAnswer assessment_id user_id questions) initGrading
    let score : ℚ :=
      if 0 < st.total_points then st.earned_points / st.total_points * 100 else 0
    let a' : Assessment :=
      { a with
        end_time := some now
        is_completed := true
        status := "completed"
        questions_answered := submission.length
        correct_answers := st.correct_answers
        score_percentage := some score
        time_taken_minutes :=
          match a.start_time with
          | some s => some (((now : ℚ) - (s : ℚ)) / 60)
          | none => a.time_taken_minutes }
    let completed := user.total_assessments_completed + 1
    let user' : User :=
      { user with
        total_assessments_completed := completed
        average_score :=
          if 0 < completed then
            (user.average_score * ((completed : ℚ) - 1) + score) / (completed : ℚ)
          else user.average_score }
    .ok (a', st.answers, user')

/-- `start_assessment` (`assessments.py` lines 211–243): rejected unless
`status == "not_started"`; otherwise stamps `in_progress` and the start
time. -/
def start_assessment (a : Assessment) (now : ℕ) : Except String Assessment :=
  if a.status ≠ "not_started" then .error "Assessment has already been started"
  else .ok { a with status := "in_progress", start_time := some now }

/-- The stored assessment row after a `start` request: the handler raises
before mutating anything on the error path, so the row is then unchanged. -/
def startResultRow (a : Assessment) (now : ℕ) : Assessment :=
  match start_assessment a now with
  | .ok a' => a'
  | .error _ => a

/-- The stored state after a `submit` request: unchanged on the error path
(the handler raises before mutating anything and no answer row is added). -/
def submitResultState (assessment_id user_id : ℕ) (a : Assessment)
    (questions : List Question) (submission : List AnswerSubmission)
    (user : User) (now : ℕ) : Assessment × List Answer × User :=
  match submit_assessment assessment_id user_id a questions submission user now with
  | .ok r => r
  | .error _ => (a, [], user)

/-- Points of the question a submitted answer refers to (`0` if none). -/
def questionPoints (questions : List Question) (qid : ℕ) : ℚ :=
  match findQuestion questions qid with
  | some q => q.points_possible
  | none => 0

/-- Whether a submitted answer matches a question and is graded correct by
the code's rule. -/
def submissionCorrect (questions : List Question) (ad : AnswerSubmission) : Bool :=
  match findQuestion questions ad.question_id with
  | some q => gradedCorrect q ad
  | none => false

/-- The submitted answers that match a question of the assessment. -/
def matchedSubmissions (questions : List Question)
    (submission : List AnswerSubmission) : List AnswerSubmission :=
  submission.filter (fun ad => (findQuestion questions ad.question_id).isSome)

/-- The score denominator: `points_possible` summed over the matched
submitted answers. -/
def specTotalPoints (questions : List Question)
    (submission : List AnswerSubmission) : ℚ :=
  ((matchedSubmissions questions submission).map
    (fun ad => questionPoints questions ad.question_id)).sum

/-- The score numerator: `points_possible` summed over the submitted answers
graded correct. -/
def specEarnedPoints (questions : List Question)
    (submission : List AnswerSubmission) : ℚ :=
  ((submission.filter (submissionCorrect questions)).map
    (fun ad => questionPoints questions ad.question_id)).sum

/-- The answer row the loop stores for a matched submitted answer, expressed
through the spec-side helpers. -/
def mkAnswer (assessment_id user_id : ℕ) (questions : List Question)
    (ad : AnswerSubmission) : Answer :=
  { assessment_id := assessment_id
    question_id := ad.question_id
    user_id := user_id
    answer_text := ad.answer_text
    selected_option := ad.selected_option
    points_possible := questionPoints questions ad.question_id
    is_correct := submissionCorrect questions ad
    points_earned :=
      if submissionCorrect questions ad then questionPoints questions ad.question_id
      else 0 }

/-- The grading rule exactly as claim C1 words it: the submitted text is
`answer_text`, or `selected_option` when `answer_text` is absent, and the
answer is correct when that text, trimmed and lowercased, equals the
question's trimmed, lowercased `correct_answer`. -/
def claimCorrect (q : Question) (ad : AnswerSubmission) : Bool :=
  match ad.answer_text, ad.selected_option with
  | some t, _ => pyLower (pyStrip t) == pyLower (pyStrip q.correct_answer)
  | none, some t => pyLower (pyStrip t) == pyLower (pyStrip q.correct_answer)
  | none, none => false

/-- Claim C1's version of `submissionCorrect`. -/
def claimSubmissionCorrect (questions : List Question) (ad : AnswerSubmission) : Bool :=
  match findQuestion questions ad.question_id with
  | some q => claimCorrect q ad
  | none => false

/-- Claim C1's version of the earned points. -/
def claimEarnedPoints (questions : List Question)
    (submission : List AnswerSubmission) : ℚ :=
  ((submission.filter (claimSubmissionCorrect questions)).map
    (fun ad => questionPoints questions ad.question_id)).sum

/-! ### Learning sessions (`learning.py`) -/

/-- The columns of a `learning_sessions` row touched by
`complete_learning_session`. -/
structure LearningSession where
  start_time : Option ℕ
  end_time : Option ℕ
  duration_minutes : Option ℕ
  completion_percentage : ℚ
  is_completed : Bool
deriving DecidableEq, Repr

/-- `complete_learning_session` (`learning.py` lines 170–205): stamps the
end time and completion, derives `duration_minutes` from `end − start` when a
start time exists, and rolls a truthy (nonzero, non-null) duration into the
user's `total_study_time_minutes`. -/
def complete_learning_session (session : LearningSession) (user : User)
    (now : ℕ) : LearningSession × User :=
  let session :=
    { session with is_completed := true, end_time := some now,
                   completion_percentage := 100 }
  let session :=
    match session.start_time with
    | some s => { session with duration_minutes := some ((now - s) / 60) }
    | none => session
  let user :=
    match session.duration_minutes with
    | some d =>
        if d ≠ 0 then
          { user with total_study_time_minutes := user.total_study_time_minutes + d }
        else user
    | none => user
  (session, user)

/-! ### Recommendations (`recommendations.py`) -/

/-- The columns of a `recommendations` row touched by responding and
completing.  `is_accepted` is a nullable Boolean: `none` means never
responded to, `some false` declined, `some true` accepted. -/
structure Recommendation where
  is_accepted : Option Bool
  is_completed : Bool
  status : String
  responded_at : Option ℕ
  completed_at : Option ℕ
deriving DecidableEq, Repr

/-- Python truthiness of the nullable Boolean `is_accepted`: `None` falsy. -/
def pyBoolTruthy : Option Bool → Bool
  | some b => b
  | none => false

/-- `respond_to_recommendation` (`recommendations.py` lines 300–334). -/
def respond_to_recommendation (r : Recommendation) (accepted : Bool)
    (now : ℕ) : Recommendation :=
  { r with is_accepted := some accepted, responded_at := some now,
           status := if accepted then "accepted" else "declined" }

/-- `complete_recommendation` (`recommendations.py` lines 337–373): rejected
with an invalid-state error unless `is_accepted` is truthy. -/
def complete_recommendation (r : Recommendation) (now : ℕ) :
    Except String Recommendation :=
  if !(pyBoolTruthy r.is_accepted) then
    .error "Cannot complete a recommendation that wasn't accepted"
  else
    .ok { r with is_completed := true, completed_at := some now,
                 status := "completed" }

/-- The stored recommendation row after a `complete` request: unchanged on
the error path. -/
def completeResultRow (r : Recommendation) (now : ℕ) : Recommendation :=
  match complete_recommendation r now with
  | .ok r' => r'
  | .error _ => r

/-! ### Content ratings (`content.py`) -/

/-- A `content_interactions` row with `interaction_type == "rate"`: the
rating one user gave to one content item.  Ratings arrive as integers 1–5
but enter float arithmetic; they are modelled as rationals. -/
structure RatingInteraction where
  user_id : ℕ
  rating : ℚ
deriving DecidableEq, Repr

/-- The columns of a `content` row touched by `rate_content`, together with
that item's "rate" interactions.  `average_rating` is nullable in the schema,
but the handler writes it before `total_ratings` first becomes positive and
reads it only under a `total_ratings > 0` guard, so a fresh item is modelled
with `average_rating = 0`. -/
structure ContentRatings where
  average_rating : ℚ
  total_ratings : ℕ
  interactions : List RatingInteraction
deriving DecidableEq, Repr

/-- A content item nobody has rated yet. -/
def freshContent : ContentRatings := ⟨0, 0, []⟩

/-- In-place update of the first "rate" row of `uid` (the `existing_rating`
row the handler fetched with `.first()`). -/
def setRating : List RatingInteraction → ℕ → ℚ → List RatingInteraction
  | [], _, _ => []
  | r :: rs, uid, v =>
      if r.user_id = uid then { r with rating := v } :: rs
      else r :: setRating rs uid v

/-- `rate_content` (`content.py` lines 367–428), past the 404 guard: upsert
the caller's rating row and incrementally maintain `average_rating` and
`total_ratings`. -/
def rate_content (uid : ℕ) (rating : ℚ) (c : ContentRatings) : ContentRatings :=
  match c.interactions.find? (fun r => r.user_id == uid) with
  | some existing_rating =>
      let old_rating := existing_rating.rating
      let interactions := setRating c.interactions uid rating
      if 0 < c.total_ratings then
        { c with
          interactions := interactions
          average_rating :=
            (c.average_rating * (c.total_ratings : ℚ) - old_rating + rating)
              / (c.total_ratings : ℚ) }
      else { c with interactions := interactions }
  | none =>
      let interactions := c.interactions ++ [⟨uid, rating⟩]
      if 0 < c.total_ratings then
        { average_rating :=
            (c.average_rating * (c.total_ratings : ℚ) + rating)
              / ((c.total_ratings : ℚ) + 1)
          total_ratings := c.total_ratings + 1
          interactions := interactions }
      else
        { average_rating := rating
          total_ratings := c.total_ratings + 1
          interactions := interactions }

/-- A sequence of rate requests `(user, value)` applied to a fresh item. -/
def applyRatings (ops : List (ℕ × ℚ)) : ContentRatings :=
  ops.foldl (fun c p => rate_content p.1 p.2 c) freshContent

/-- The consistency relation between a content item's stored aggregate and
its rating rows: `total_ratings` counts them and `average_rating` times the
count is their sum. -/
def RatingsInv (c : ContentRatings) : Prop :=
  c.total_ratings = c.interactions.length
    ∧ c.average_rating * (c.total_ratings : ℚ)
        = (c.interactions.map (·.rating)).sum

/-! ### Achievement unlock engine (`progress.py`) -/

/-- One row of the `achievements` table, with the columns
`check_for_new_achievements` writes and its existence queries read. -/
structure Achievement where
  user_id : ℕ
  achievement_type : String
  title : String
  description : String
  badge_icon : String
  category : String
  difficulty_level : String
  rarity : String
  points_awarded : ℕ
  threshold_value : ℕ
  required_progress : ℕ
  current_progress : ℚ
  progress_percentage : ℚ
  is_unlocked : Bool
  unlocked_at : ℕ
deriving DecidableEq, Repr

/-- The aggregates `check_for_new_achievements` reads before inserting: the
caller's id, max `Progress.streak_days`, `total_study_time_minutes`, running
`average_score`, and the count of mastered `Progress` rows. -/
structure AchievementAggregates where
  user_id : ℕ
  max_streak : ℕ
  total_study_time : ℕ
  average_score : ℚ
  mastered_subjects : ℕ
deriving DecidableEq, Repr

/-- The existence query of the thresholded milestones: same
`(user_id, achievement_type, threshold_value)`. -/
def matchesThreshold (uid : ℕ) (ty : String) (milestone : ℕ)
    (a : Achievement) : Bool :=
  a.user_id == uid && a.achievement_type == ty && a.threshold_value == milestone

/-- The existence query of the perfect-score achievement: same
`(user_id, achievement_type, title)`. -/
def matchesTitle (uid : ℕ) (ty title : String) (a : Achievement) : Bool :=
  a.user_id == uid && a.achievement_type == ty && a.title == title

/-- One lookup-then-insert step of the unlock engine: `qual` is the milestone
test against the aggregates, `pred` the existence query, `mk` the row
inserted when the query finds nothing. -/
structure UnlockRule where
  qual : Bool
  pred : Achievement → Bool
  row : Achievement

/-- `if <qualifies>: existing = query(...).first(); if not existing:
db.add(...); achievements_unlocked += 1`. -/
def applyRule (st : List Achievement × ℕ) (r : UnlockRule) :
    List Achievement × ℕ :=
  if r.qual && !(st.1.any r.pred) then (st.1 ++ [r.row], st.2 + 1) else st

/-- `progress.py` lines 239–269: one streak milestone. -/
def streakRule (g : AchievementAggregates) (now milestone : ℕ) : UnlockRule :=
  { qual := decide (milestone ≤ g.max_streak)
    pred := matchesThreshold g.user_id "streak" milestone
    row :=
      { user_id := g.user_id
        achievement_type := "streak"
        title := toString milestone ++ "-Day Study Streak"
        description := "Studied consistently for " ++ toString milestone
          ++ " days in a row!"
        badge_icon := "streak_badge"
        category := "consistency"
        difficulty_level := if milestone ≤ 30 then "medium" else "hard"
        rarity := if milestone ≤ 30 then "uncommon" else "rare"
        points_awarded := milestone * 2
        threshold_value := milestone
        required_progress := milestone
        current_progress := (g.max_streak : ℚ)
        progress_percentage := 100
        is_unlocked := true
        unlocked_at := now } }

/-- `progress.py` lines 275–305: one study-time milestone. -/
def timeRule (g : AchievementAggregates) (now milestone : ℕ) : UnlockRule :=
  { qual := decide (milestone ≤ g.total_study_time)
    pred := matchesThreshold g.user_id "time" milestone
    row :=
      { user_id := g.user_id
        achievement_type := "time"
        title := toString (milestone / 60) ++ "-Hour Scholar"
        description := "Dedicated " ++ toString (milestone / 60)
          ++ " hours to learning!"
        badge_icon := "time_badge"
        category := "dedication"
        difficulty_level :=
          if milestone / 60 ≤ 20 then "easy"
          else if milestone / 60 ≤ 100 then "medium" else "hard"
        rarity :=
          if milestone / 60 ≤ 20 then "common"
          else if milestone / 60 ≤ 100 then "uncommon" else "rare"
        points_awarded := milestone / 60 * 5
        threshold_value := milestone
        required_progress := milestone
        current_progress := (g.total_study_time : ℚ)
        progress_percentage := 100
        is_unlocked := true
        unlocked_at := now } }

/-- `progress.py` lines 308–336: the perfect-score achievement, keyed by
title instead of threshold. -/
def perfectRule (g : AchievementAggregates) (now : ℕ) : UnlockRule :=
  { qual := decide ((95 : ℚ) ≤ g.average_score)
    pred := matchesTitle g.user_id "assessment" "Perfectionist"
    row :=
      { user_id := g.user_id
        achievement_type := "assessment"
        title := "Perfectionist"
        description := "Maintained an average score of 95% or higher!"
        badge_icon := "perfect_badge"
        category := "excellence"
        difficulty_level := "hard"
        rarity := "epic"
        points_awarded := 100
        threshold_value := 95
        required_progress := 95
        current_progress := g.average_score
        progress_percentage := 100
        is_unlocked := true
        unlocked_at := now } }

/-- `progress.py` lines 346–376: one mastery-count milestone. -/
def masteryRule (g : AchievementAggregates) (now milestone : ℕ) : UnlockRule :=
  { qual := decide (milestone ≤ g.mastered_subjects)
    pred := matchesThreshold g.user_id "mastery" milestone
    row :=
      { user_id := g.user_id
        achievement_type := "mastery"
        title := "Master of " ++ toString milestone ++ " Subject"
          ++ (if 1 < milestone then "s" else "")
        description := "Achieved mastery in " ++ toString milestone
          ++ " subject" ++ (if 1 < milestone then "s" else "") ++ "!"
        badge_icon := "mastery_badge"
        category := "expertise"
        difficulty_level := if milestone ≤ 3 then "medium" else "hard"
        rarity := if milestone ≤ 3 then "rare" else "epic"
        points_awarded := milestone * 50
        threshold_value := milestone
        required_progress := milestone
        current_progress := (g.mastered_subjects : ℚ)
        progress_percentage := 100
        is_unlocked := true
        unlocked_at := now } }

def streak_milestones : List ℕ := [7, 14, 30, 60, 100]

def time_milestones : List ℕ := [600, 1200, 3000, 6000, 12000]

def mastery_milestones : List ℕ := [1, 3, 5, 10]

/-- The lookup-then-insert steps of `check_for_new_achievements`, in the
order the handler runs them. -/
def unlockRules (g : AchievementAggregates) (now : ℕ) : List UnlockRule :=
  streak_milestones.map (streakRule g now)
    ++ time_milestones.map (timeRule g now)
    ++ [perfectRule g now]
    ++ mastery_milestones.map (masteryRule g now)

/-- `check_for_new_achievements` (`progress.py` lines 227–383): runs every
milestone check against the current aggregates and the stored achievement
rows, returning the new rows list and `achievements_unlocked`. -/
def check_for_new_achievements (g : AchievementAggregates) (now : ℕ)
    (achievements : List Achievement) : List Achievement × ℕ :=
  (unlockRules g now).foldl applyRule (achievements, 0)

lemma range_cast_sum_mul_two (n : ℕ) :
    ((List.range n).map (fun i : ℕ => (i : ℚ))).sum * 2 = (n : ℚ) * ((n : ℚ) - 1) := by
  induction n with
  | zero => simp
  | succ m ih =>
    rw [List.range_succ, List.map_append, List.sum_append]
    simp only [List.map_cons, List.map_nil, List.sum_cons, List.sum_nil, add_zero]
    push_cast
    linear_combination ih

lemma range_cast_sq_sum_mul_six (n : ℕ) :
    ((List.range n).map (fun i : ℕ => (i : ℚ) * i)).sum * 6
      = (n : ℚ) * ((n : ℚ) - 1) * (2 * (n : ℚ) - 1) := by
  induction n with
  | zero => simp
  | succ m ih =>
    rw [List.range_succ, List.map_append, List.sum_append]
    simp only [List.map_cons, List.map_nil, List.sum_cons, List.sum_nil, add_zero]
    push_cast
    linear_combination ih

/-- The OLS denominator `n·Σx² − (Σx)²` over `x = 0..n-1` equals
`n²(n²−1)/12`, hence is positive for `n ≥ 2`. -/
lemma trend_denominator_pos (n : ℕ) (hn : 2 ≤ n) :
    0 < (n : ℚ) * ((List.range n).map (fun i : ℕ => (i : ℚ) * i)).sum
        - ((List.range n).map (fun i : ℕ => (i : ℚ))).sum
          * ((List.range n).map (fun i : ℕ => (i : ℚ))).sum := by
  have h1 := range_cast_sum_mul_two n
  have h2 := range_cast_sq_sum_mul_six n
  have hn' : (2 : ℚ) ≤ (n : ℚ) := by exact_mod_cast hn
  set a : ℚ := ((List.range n).map (fun i : ℕ => (i : ℚ))).sum with ha
  set b : ℚ := ((List.range n).map (fun i : ℕ => (i : ℚ) * i)).sum with hb
  have key : 12 * ((n : ℚ) * b - a * a)
      = (n : ℚ) * (n : ℚ) * ((n : ℚ) - 1) * ((n : ℚ) + 1) := by
    linear_combination (2 * (n : ℚ)) * h2 - (3 * (2 * a + (n : ℚ) * ((n : ℚ) - 1))) * h1
  have c1 : 0 < (n : ℚ) := by linarith
  have c2 : 0 < (n : ℚ) - 1 := by linarith
  have c3 : 0 < (n : ℚ) + 1 := by linarith
  have hpos : 0 < (n : ℚ) * (n : ℚ) * ((n : ℚ) - 1) * ((n : ℚ) + 1) :=
    mul_pos (mul_pos (mul_pos c1 c1) c2) c3
  linarith [key, hpos]

lemma score_mean_nonneg (l : List AssessmentRow)
    (h : ∀ a ∈ l, 0 ≤ a.score_percentage) :
    0 ≤ listMean (l.map (·.score_percentage)) := by
  apply div_nonneg
  · apply List.sum_nonneg
    intro x hx
    obtain ⟨a, ha, rfl⟩ := List.mem_map.mp hx
    exact h a ha
  · positivity

/-- C9: `average_score` in the analytics overview is the arithmetic mean of
`score_percentage` over the completed assessments in the window, and is
exactly `0` — the handler returns normally, it does not raise — when no
completed assessment falls in the window. -/
theorem overview_average_score_is_mean (rows : List AssessmentRow) (start_date : ℕ) :
    (completedInWindow rows start_date ≠ [] →
      overview_average_score rows start_date
        = listMean ((completedInWindow rows start_date).map (·.score_percentage)))
    ∧ (completedInWindow rows start_date = [] →
      overview_average_score rows start_date = 0) := by
  constructor
  · intro h
    simp [overview_average_score, listMean, List.isEmpty_iff, h]
  · intro h
    simp [overview_average_score, h]

/-- Witness for C9 at concrete inputs: two completed assessments (80 and 100)
and one incomplete one give mean 90; an empty store gives 0. -/
theorem overview_average_score_is_mean_witness :
    overview_average_score [⟨80, true, 5⟩, ⟨100, true, 5⟩, ⟨50, false, 5⟩] 0
        = listMean [80, 100]
      ∧ overview_average_score [] 0 = 0 := by
  constructor
  · rw [(overview_average_score_is_mean
      [⟨80, true, 5⟩, ⟨100, true, 5⟩, ⟨50, false, 5⟩] 0).1 (by decide)]
    simp [completedInWindow]
  · exact (overview_average_score_is_mean [] 0).2 rfl

/-- C5: the overview `improvement_rate` splits the completed-in-window list
(in store order, i.e. creation-time order) at its floor midpoint, and equals
`(secondHalfMean − firstHalfMean) / firstHalfMean × 100`, with `0` when the
first half's mean is `0` or fewer than two completed assessments exist.
Scores are assumed nonnegative (they are percentages written by the grader). -/
theorem overview_improvement_rate_two_bucket (rows : List AssessmentRow) (start_date : ℕ)
    (hpos : ∀ a ∈ rows, 0 ≤ a.score_percentage) :
    ((completedInWindow rows start_date).length < 2 →
      overview_improvement_rate rows start_date = 0)
    ∧ (2 ≤ (completedInWindow rows start_date).length →
        (listMean (((completedInWindow rows start_date).take
            ((completedInWindow rows start_date).length / 2)).map (·.score_percentage)) = 0 →
          overview_improvement_rate rows start_date = 0)
        ∧ (listMean (((completedInWindow rows start_date).take
            ((completedInWindow rows start_date).length / 2)).map (·.score_percentage)) ≠ 0 →
          overview_improvement_rate rows start_date
            = (listMean (((completedInWindow rows start_date).drop
                  ((completedInWindow rows start_date).length / 2)).map (·.score_percentage))
                - listMean (((completedInWindow rows start_date).take
                  ((completedInWindow rows start_date).length / 2)).map (·.score_percentage)))
              / listMean (((completedInWindow rows start_date).take
                  ((completedInWindow rows start_date).length / 2)).map (·.score_percentage))
              * 100)) := by
  have hsub : ∀ a ∈ completedInWindow rows start_date, 0 ≤ a.score_percentage :=
    fun a ha => hpos a (List.mem_of_mem_filter ha)
  have htake : ∀ a ∈ (completedInWindow rows start_date).take
      ((completedInWindow rows start_date).length / 2), 0 ≤ a.score_percentage :=
    fun a ha => hsub a (List.mem_of_mem_take ha)
  have hmean := score_mean_nonneg _ htake
  have hfirst : listMean (((completedInWindow rows start_date).take
        ((completedInWindow rows start_date).length / 2)).map (·.score_percentage))
      = (((completedInWindow rows start_date).take
          ((completedInWindow rows start_date).length / 2)).map (·.score_percentage)).sum
        / ((((completedInWindow rows start_date).take
          ((completedInWindow rows start_date).length / 2))).length : ℚ) := by
    rw [listMean, List.length_map]
  have hsecond : listMean (((completedInWindow rows start_date).drop
        ((completedInWindow rows start_date).length / 2)).map (·.score_percentage))
      = (((completedInWindow rows start_date).drop
          ((completedInWindow rows start_date).length / 2)).map (·.score_percentage)).sum
        / ((((completedInWindow rows start_date).drop
          ((completedInWindow rows start_date).length / 2))).length : ℚ) := by
    rw [listMean, List.length_map]
  constructor
  · intro hlt
    simp only [overview_improvement_rate, improvement_rate]
    rw [if_neg (by omega)]
  · intro hge
    constructor
    · intro hzero
      simp only [overview_improvement_rate, improvement_rate]
      rw [if_pos hge, if_neg]
      rw [hfirst] at hzero
      rw [hzero]
      exact lt_irrefl 0
    · intro hne
      have hlt : 0 < (((completedInWindow rows start_date).take
            ((completedInWindow rows start_date).length / 2)).map (·.score_percentage)).sum
          / ((((completedInWindow rows start_date).take
            ((completedInWindow rows start_date).length / 2))).length : ℚ) := by
        rw [← hfirst]
        exact lt_of_le_of_ne hmean (Ne.symm hne)
      simp only [overview_improvement_rate, improvement_rate]
      rw [if_pos hge, if_pos hlt, hfirst, hsecond]

/-- Witness for C5, the spec's scenario: two completed assessments scoring
60 then 90 give improvement rate `((90 − 60)/60) × 100 = 50`. -/
theorem overview_improvement_rate_witness :
    overview_improvement_rate [⟨60, true, 0⟩, ⟨90, true, 1⟩] 0 = 50 := by
  have h := ((overview_improvement_rate_two_bucket
      [⟨60, true, 0⟩, ⟨90, true, 1⟩] 0 (by decide)).2 (by decide)).2
    (by norm_num [completedInWindow, listMean])
  rw [h]
  norm_num [completedInWindow, listMean]

/-- C6: the assessment-analytics improvement trend returns `0` when the score
list has at most one element, and for `n ≥ 2` its OLS denominator
`n·Σx² − (Σx)²` (over `x = 0..n−1`) is nonzero and the returned value is
exactly the closed-form slope `(n·Σxy − Σx·Σy) / (n·Σx² − (Σx)²)`. -/
theorem improvement_trend_ols (scores : List ℚ) :
    (scores.length ≤ 1 → improvement_trend scores = 0)
    ∧ (2 ≤ scores.length →
        ((scores.length : ℚ)
            * ((List.range scores.length).map (fun i : ℕ => (i : ℚ) * i)).sum
          - ((List.range scores.length).map (fun i : ℕ => (i : ℚ))).sum
            * ((List.range scores.length).map (fun i : ℕ => (i : ℚ))).sum) ≠ 0
        ∧ improvement_trend scores
            = ((scores.length : ℚ) * (scores.enum.map (fun p => (p.1 : ℚ) * p.2)).sum
                - ((List.range scores.length).map (fun i : ℕ => (i : ℚ))).sum * scores.sum)
              / ((scores.length : ℚ)
                  * ((List.range scores.length).map (fun i : ℕ => (i : ℚ) * i)).sum
                - ((List.range scores.length).map (fun i : ℕ => (i : ℚ))).sum
                  * ((List.range scores.length).map (fun i : ℕ => (i : ℚ))).sum)) := by
  constructor
  · intro h
    simp only [improvement_trend]
    rw [if_neg (by omega)]
  · intro h
    refine ⟨ne_of_gt (trend_denominator_pos scores.length h), ?_⟩
    simp only [improvement_trend]
    rw [if_pos (by omega)]

/-- Witness for C6 at the concrete score list `[60, 90]`: the denominator
evaluates to `1 ≠ 0` and the slope evaluates to `30`. -/
theorem improvement_trend_ols_witness :
    improvement_trend [(60 : ℚ), 90] = 30
      ∧ (([(60 : ℚ), 90].length : ℚ)
            * ((List.range [(60 : ℚ), 90].length).map (fun i : ℕ => (i : ℚ) * i)).sum
          - ((List.range [(60 : ℚ), 90].length).map (fun i : ℕ => (i : ℚ))).sum
            * ((List.range [(60 : ℚ), 90].length).map (fun i : ℕ => (i : ℚ))).sum) ≠ 0 := by
  have h := (improvement_trend_ols [(60 : ℚ), 90]).2 (by decide)
  refine ⟨?_, h.1⟩
  rw [h.2]
  norm_num [List.range_succ, List.enum_cons, List.enumFrom]

/-- C7: `start` succeeds exactly when the assessment is `not_started` and
`submit` succeeds exactly when it is `in_progress`; in any other status the
request is rejected with the invalid-state error and the stored rows are
unchanged. -/
theorem start_submit_status_gate (assessment_id user_id : ℕ) (a : Assessment)
    (questions : List Question) (submission : List AnswerSubmission)
    (user : User) (now : ℕ) :
    ((∃ a', start_assessment a now = .ok a') ↔ a.status = "not_started")
    ∧ (a.status ≠ "not_started" →
        start_assessment a now = .error "Assessment has already been started"
          ∧ startResultRow a now = a)
    ∧ ((∃ r, submit_assessment assessment_id user_id a questions submission user now
          = .ok r) ↔ a.status = "in_progress")
    ∧ (a.status ≠ "in_progress" →
        submit_assessment assessment_id user_id a questions submission user now
            = .error "Assessment is not in progress"
          ∧ submitResultState assessment_id user_id a questions submission user now
            = (a, [], user)) := by
  refine ⟨⟨?_, ?_⟩, ?_, ⟨?_, ?_⟩, ?_⟩
  · rintro ⟨a', h⟩
    by_contra hne
    rw [start_assessment, if_pos hne] at h
    simp at h
  · intro h
    exact ⟨_, by rw [start_assessment, if_neg (by simp [h])]⟩
  · intro h
    have he : start_assessment a now = .error "Assessment has already been started" := by
      rw [start_assessment, if_pos h]
    exact ⟨he, by rw [startResultRow, he]⟩
  · rintro ⟨r, h⟩
    by_contra hne
    rw [submit_assessment, if_pos hne] at h
    simp at h
  · intro h
    exact ⟨_, by rw [submit_assessment, if_neg (by simp [h])]⟩
  · intro h
    have he : submit_assessment assessment_id user_id a questions submission user now
        = .error "Assessment is not in progress" := by
      rw [submit_assessment, if_pos h]
    exact ⟨he, by rw [submitResultState, he]⟩

/-- Witness for C7: a `completed` assessment can be neither started nor
submitted to; both handlers answer with the invalid-state error. -/
theorem start_submit_status_gate_witness :
    start_assessment ⟨"completed", none, none, true, 0, 0, none, none⟩ 3
        = .error "Assessment has already been started"
      ∧ submit_assessment 1 1 ⟨"completed", none, none, true, 0, 0, none, none⟩
          [] [] ⟨0, 0, 0⟩ 3
        = .error "Assessment is not in progress" :=
  ⟨((start_submit_status_gate 1 1 ⟨"completed", none, none, true, 0, 0, none, none⟩
      [] [] ⟨0, 0, 0⟩ 3).2.1 (by decide)).1,
   ((start_submit_status_gate 1 1 ⟨"completed", none, none, true, 0, 0, none, none⟩
      [] [] ⟨0, 0, 0⟩ 3).2.2.2 (by decide)).1⟩

/-- C8: completing a recommendation succeeds exactly when it was accepted
(`is_accepted = True`); for a pending (never responded), declined, or
null-response recommendation, the handler rejects with the invalid-state
error and the row is unchanged. -/
theorem complete_recommendation_requires_accepted (r : Recommendation) (now : ℕ) :
    ((∃ r', complete_recommendation r now = .ok r') ↔ r.is_accepted = some true)
    ∧ (r.is_accepted ≠ some true →
        complete_recommendation r now
            = .error "Cannot complete a recommendation that wasn't accepted"
          ∧ completeResultRow r now = r) := by
  rcases r with ⟨acc, comp, st, ra, ca⟩
  cases acc with
  | none => simp [complete_recommendation, completeResultRow, pyBoolTruthy]
  | some b =>
    cases b
    · simp [complete_recommendation, completeResultRow, pyBoolTruthy]
    · simp [complete_recommendation, completeResultRow, pyBoolTruthy]

/-- Witness for C8: a declined recommendation cannot be completed and its
row is unchanged. -/
theorem complete_recommendation_witness :
    complete_recommendation ⟨some false, false, "declined", some 5, none⟩ 9
        = .error "Cannot complete a recommendation that wasn't accepted"
      ∧ completeResultRow ⟨some false, false, "declined", some 5, none⟩ 9
        = ⟨some false, false, "declined", some 5, none⟩ :=
  (complete_recommendation_requires_accepted
    ⟨some false, false, "declined", some 5, none⟩ 9).2 (by decide)

/-- C2: completing a learning session that started at second `s` stamps
`end_time := now`, sets `duration_minutes` to the whole minutes of
`now − s`, marks it completed, and adds exactly that duration to the owning
user's `total_study_time_minutes`, once (when the duration is `0` the code
skips the addition, which adds `0` all the same). -/
theorem complete_session_adds_duration_once (session : LearningSession)
    (user : User) (now s : ℕ) (hs : session.start_time = some s) (hle : s ≤ now) :
    (complete_learning_session session user now).1.end_time = some now
      ∧ (complete_learning_session session user now).1.duration_minutes
          = some ((now - s) / 60)
      ∧ (complete_learning_session session user now).1.is_completed = true
      ∧ (complete_learning_session session user now).2.total_study_time_minutes
          = user.total_study_time_minutes + (now - s) / 60 := by
  rcases session with ⟨st, et, dm, cp, ic⟩
  simp only [LearningSession.mk.injEq] at hs ⊢
  subst hs
  simp only [complete_learning_session]
  by_cases hz : (now - s) / 60 = 0
  · simp [hz]
  · simp [hz]

/-- Witness for C2, the spec's scenario: a session started at second 1000
and completed 45 minutes later (second 3700) gets duration 45 and adds
exactly 45 to a user total of 10, giving 55. -/
theorem complete_session_witness :
    (complete_learning_session ⟨some 1000, none, none, 0, false⟩
        ⟨10, 0, 0⟩ 3700).2.total_study_time_minutes = 55
      ∧ (complete_learning_session ⟨some 1000, none, none, 0, false⟩
          ⟨10, 0, 0⟩ 3700).1.duration_minutes = some 45 := by
  have h := complete_session_adds_duration_once ⟨some 1000, none, none, 0, false⟩
    ⟨10, 0, 0⟩ 3700 1000 rfl (by decide)
  refine ⟨?_, ?_⟩
  · rw [h.2.2.2]
  · rw [h.2.1]

lemma setRating_length (l : List RatingInteraction) (uid : ℕ) (v : ℚ) :
    (setRating l uid v).length = l.length := by
  induction l with
  | nil => rfl
  | cons r rs ih =>
    rw [setRating]
    by_cases h : r.user_id = uid
    · simp [h]
    · simp [h, ih]

lemma setRating_sum (l : List RatingInteraction) (uid : ℕ) (v : ℚ)
    (r : RatingInteraction) (h : l.find? (fun x => x.user_id == uid) = some r) :
    ((setRating l uid v).map (·.rating)).sum
      = (l.map (·.rating)).sum - r.rating + v := by
  induction l with
  | nil => simp at h
  | cons x xs ih =>
    by_cases hx : x.user_id = uid
    · rw [List.find?_cons_of_pos _ (by simp [hx])] at h
      injection h with h
      subst h
      rw [setRating]
      simp [hx]
      ring
    · rw [List.find?_cons_of_neg _ (by simp [hx])] at h
      rw [setRating]
      simp only [if_neg hx, List.map_cons, List.sum_cons, ih h]
      ring

lemma rate_content_preserves_inv (uid : ℕ) (v : ℚ) (c : ContentRatings)
    (h : RatingsInv c) : RatingsInv (rate_content uid v c) := by
  obtain ⟨hcount, hsum⟩ := h
  cases hfind : c.interactions.find? (fun r => r.user_id == uid) with
  | none =>
    simp only [RatingsInv, rate_content, hfind]
    by_cases hpos : 0 < c.total_ratings
    · rw [if_pos hpos]
      have hT : ((c.total_ratings : ℚ) + 1) ≠ 0 := by positivity
      refine ⟨by simp [hcount], ?_⟩
      push_cast
      rw [div_mul_cancel₀ _ hT]
      simp only [List.map_append, List.sum_append, List.map_cons, List.map_nil,
        List.sum_cons, List.sum_nil]
      linarith [hsum]
    · rw [if_neg hpos]
      have h0 : c.total_ratings = 0 := by omega
      have hnil : (c.interactions.map (·.rating)).sum = 0 := by
        rw [← hsum, h0]; push_cast; ring
      refine ⟨by simp [hcount], ?_⟩
      simp only [List.map_append, List.sum_append, List.map_cons, List.map_nil,
        List.sum_cons, List.sum_nil, h0, hnil]
      push_cast
      ring
  | some existing_rating =>
    have hne : c.interactions ≠ [] := by
      intro h0; rw [h0] at hfind; simp at hfind
    have hlen : 0 < c.interactions.length := List.length_pos.mpr hne
    have hpos : 0 < c.total_ratings := by omega
    have hT : (c.total_ratings : ℚ) ≠ 0 := by positivity
    simp only [RatingsInv, rate_content, hfind]
    rw [if_pos hpos]
    refine ⟨by simp [hcount, setRating_length], ?_⟩
    rw [div_mul_cancel₀ _ hT,
      setRating_sum c.interactions uid v existing_rating hfind]
    linarith [hsum]

lemma foldl_rate_content_inv (ops : List (ℕ × ℚ)) (c : ContentRatings)
    (h : RatingsInv c) :
    RatingsInv (ops.foldl (fun c p => rate_content p.1 p.2 c) c) := by
  induction ops generalizing c with
  | nil => exact h
  | cons p rest ih => exact ih _ (rate_content_preserves_inv p.1 p.2 c h)

/-- C4: after any sequence of rating insertions and in-place edits through
the rate endpoint, starting from an unrated item, `total_ratings` counts the
per-user rating rows and `average_rating` equals the arithmetic mean of the
current ratings. -/
theorem rate_content_running_mean (ops : List (ℕ × ℚ)) :
    (applyRatings ops).total_ratings = (applyRatings ops).interactions.length
      ∧ ((applyRatings ops).interactions ≠ [] →
          (applyRatings ops).average_rating
            = listMean ((applyRatings ops).interactions.map (·.rating))) := by
  have hinv : RatingsInv (applyRatings ops) :=
    foldl_rate_content_inv ops freshContent (by simp [RatingsInv, freshContent])
  obtain ⟨hcount, hsum⟩ := hinv
  refine ⟨hcount, fun hne => ?_⟩
  have hlen : 0 < (applyRatings ops).interactions.length := List.length_pos.mpr hne
  have hT : (((applyRatings ops).interactions.length : ℕ) : ℚ) ≠ 0 := by positivity
  rw [listMean, List.length_map, ← hsum, hcount]
  exact (mul_div_cancel_right₀ _ hT).symm

/-- Witness for C4, the spec's scenario: user 1 rates 5 stars then edits to
3 stars → `average_rating = 3`, `total_ratings = 1`. -/
theorem rate_content_running_mean_witness :
    (applyRatings [(1, 5), (1, 3)]).average_rating = 3
      ∧ (applyRatings [(1, 5), (1, 3)]).total_ratings = 1 := by
  have hi : (applyRatings [(1, 5), (1, 3)]).interactions = [⟨1, 3⟩] := rfl
  have h := rate_content_running_mean [(1, 5), (1, 3)]
  constructor
  · rw [h.2 (by rw [hi]; simp), hi]
    simp [listMean]
  · rw [h.1, hi]
    rfl

lemma applyRule_any_mono (r : UnlockRule) (st : List Achievement × ℕ)
    (p : Achievement → Bool) (h : st.1.any p = true) :
    (applyRule st r).1.any p = true := by
  rw [applyRule]
  by_cases hc : (r.qual && !(st.1.any r.pred)) = true
  · rw [if_pos hc]; simp [List.any_append, h]
  · rw [if_neg hc]; exact h

lemma foldl_applyRule_any_mono (rules : List UnlockRule)
    (st : List Achievement × ℕ) (p : Achievement → Bool)
    (h : st.1.any p = true) :
    ((rules.foldl applyRule st).1.any p) = true := by
  induction rules generalizing st with
  | nil => exact h
  | cons r rest ih => exact ih _ (applyRule_any_mono r st p h)

lemma applyRule_establishes (r : UnlockRule) (st : List Achievement × ℕ)
    (hmk : r.pred r.row = true) (hq : r.qual = true) :
    ((applyRule st r).1.any r.pred) = true := by
  rw [applyRule]
  cases hany : st.1.any r.pred
  · rw [if_pos (by simp [hq, hany])]
    simp [List.any_append, hmk]
  · rw [if_neg (by simp [hany])]
    exact hany

lemma foldl_applyRule_establishes (rules : List UnlockRule)
    (st : List Achievement × ℕ)
    (hmks : ∀ r ∈ rules, r.pred r.row = true) :
    ∀ r ∈ rules, r.qual = true →
      ((rules.foldl applyRule st).1.any r.pred) = true := by
  induction rules generalizing st with
  | nil => intro r hr; simp at hr
  | cons x rest ih =>
    intro r hr hq
    rw [List.foldl_cons]
    rcases List.mem_cons.mp hr with rfl | hmem
    · exact foldl_applyRule_any_mono rest _ _
        (applyRule_establishes r st (hmks r hr) hq)
    · exact ih _ (fun r' h' => hmks r' (List.mem_cons_of_mem _ h')) r hmem hq

lemma foldl_applyRule_noop (rules : List UnlockRule) (l : List Achievement)
    (c : ℕ) (h : ∀ r ∈ rules, r.qual = true → l.any r.pred = true) :
    rules.foldl applyRule (l, c) = (l, c) := by
  induction rules generalizing c with
  | nil => rfl
  | cons x rest ih =>
    rw [List.foldl_cons]
    have hx : applyRule (l, c) x = (l, c) := by
      rw [applyRule]
      by_cases hq : x.qual = true
      · have hany := h x (List.mem_cons_self x rest) hq
        rw [if_neg (by simp only [hq, hany]; simp)]
      · rw [if_neg (by simp [hq])]
    rw [hx]
    exact ih c (fun r hr => h r (List.mem_cons_of_mem _ hr))

lemma unlockRules_pred_row (g : AchievementAggregates) (now : ℕ) :
    ∀ r ∈ unlockRules g now, r.pred r.row = true := by
  intro r hr
  simp only [unlockRules, streak_milestones, time_milestones, mastery_milestones,
    List.map_cons, List.map_nil, List.cons_append, List.nil_append] at hr
  fin_cases hr <;>
    simp [streakRule, timeRule, perfectRule, masteryRule,
      matchesThreshold, matchesTitle]

/-- C3: the unlock engine is idempotent: because every insert is guarded by
an existence query on `(user, achievement_type, threshold_value)` — or, for
the perfect-score achievement, `(user, achievement_type, title)` — a second
run against the same aggregates with no intervening state change inserts
nothing: it unlocks zero new achievements and leaves the rows unchanged. -/
theorem check_achievements_idempotent (g : AchievementAggregates) (now : ℕ)
    (achievements : List Achievement) :
    check_for_new_achievements g now
        (check_for_new_achievements g now achievements).1
      = ((check_for_new_achievements g now achievements).1, 0) := by
  rw [check_for_new_achievements, check_for_new_achievements]
  apply foldl_applyRule_noop
  intro r hr hq
  exact foldl_applyRule_establishes (unlockRules g now) (achievements, 0)
    (unlockRules_pred_row g now) r hr hq

lemma processAnswer_spec (assessment_id user_id : ℕ) (questions : List Question)
    (submission : List AnswerSubmission) (st : GradingState) :
    (submission.foldl (processAnswer assessment_id user_id questions) st).answers
        = st.answers
          ++ (matchedSubmissions questions submission).map
              (mkAnswer assessment_id user_id questions)
      ∧ (submission.foldl (processAnswer assessment_id user_id questions) st).total_points
        = st.total_points + specTotalPoints questions submission
      ∧ (submission.foldl (processAnswer assessment_id user_id questions) st).earned_points
        = st.earned_points + specEarnedPoints questions submission
      ∧ (submission.foldl (processAnswer assessment_id user_id questions) st).correct_answers
        = st.correct_answers
          + (submission.filter (submissionCorrect questions)).length := by
  induction submission generalizing st with
  | nil => simp [matchedSubmissions, specTotalPoints, specEarnedPoints]
  | cons ad rest ih =>
    rw [List.foldl_cons]
    cases hq : findQuestion questions ad.question_id with
    | none =>
      have hp : processAnswer assessment_id user_id questions st ad = st := by
        simp only [processAnswer, hq]
      have hcor : submissionCorrect questions ad = false := by
        simp only [submissionCorrect, hq]
      have hm : matchedSubmissions questions (ad :: rest)
          = matchedSubmissions questions rest := by
        simp [matchedSubmissions, List.filter_cons, hq]
      have ht : specTotalPoints questions (ad :: rest)
          = specTotalPoints questions rest := by
        rw [specTotalPoints, hm, ← specTotalPoints]
      have he : specEarnedPoints questions (ad :: rest)
          = specEarnedPoints questions rest := by
        rw [specEarnedPoints, List.filter_cons, if_neg (by simp [hcor]),
          ← specEarnedPoints]
      have hl : ((ad :: rest).filter (submissionCorrect questions)).length
          = (rest.filter (submissionCorrect questions)).length := by
        rw [List.filter_cons, if_neg (by simp [hcor])]
      obtain ⟨ih1, ih2, ih3, ih4⟩ := ih st
      rw [hp]
      exact ⟨by rw [ih1, hm], by rw [ih2, ht], by rw [ih3, he], by rw [ih4, hl]⟩
    | some q =>
      have hpts : questionPoints questions ad.question_id = q.points_possible := by
        simp only [questionPoints, hq]
      have hcor : submissionCorrect questions ad = gradedCorrect q ad := by
        simp only [submissionCorrect, hq]
      have hm : matchedSubmissions questions (ad :: rest)
          = ad :: matchedSubmissions questions rest := by
        simp [matchedSubmissions, List.filter_cons, hq]
      have ht : specTotalPoints questions (ad :: rest)
          = q.points_possible + specTotalPoints questions rest := by
        rw [specTotalPoints, hm, List.map_cons, List.sum_cons, hpts,
          ← specTotalPoints]
      have he : specEarnedPoints questions (ad :: rest)
          = (if gradedCorrect q ad then q.points_possible else 0)
            + specEarnedPoints questions rest := by
        rw [specEarnedPoints, List.filter_cons]
        cases hc : gradedCorrect q ad with
        | false =>
          rw [if_neg (by simp [hcor, hc]), ← specEarnedPoints]
          simp
        | true =>
          rw [if_pos (by simp [hcor, hc]), List.map_cons, List.sum_cons, hpts,
            ← specEarnedPoints]
          simp
      have hl : ((ad :: rest).filter (submissionCorrect questions)).length
          = (if gradedCorrect q ad then 1 else 0)
            + (rest.filter (submissionCorrect questions)).length := by
        rw [List.filter_cons]
        cases hc : gradedCorrect q ad with
        | false => rw [if_neg (by simp [hcor, hc])]; simp
        | true => rw [if_pos (by simp [hcor, hc])]; simp [List.length_cons]; omega
      have hp : processAnswer assessment_id user_id questions st ad
          = { answers := st.answers
                ++ [mkAnswer assessment_id user_id questions ad]
              correct_answers :=
                st.correct_answers + (if gradedCorrect q ad then 1 else 0)
              total_points := st.total_points + q.points_possible
              earned_points :=
                st.earned_points
                  + (if gradedCorrect q ad then q.points_possible else 0) } := by
        simp only [processAnswer, hq]
        simp [mkAnswer, hpts, hcor]
      obtain ⟨ih1, ih2, ih3, ih4⟩ :=
        ih (processAnswer assessment_id user_id questions st ad)
      refine ⟨?_, ?_, ?_, ?_⟩
      · rw [ih1, hp, hm]
        simp
      · rw [ih2, hp, ht]
        simp only []
        ring
      · rw [ih3, hp, he]
        simp only []
        ring
      · rw [ih4, hp, hl]
        simp only []
        omega

/-- C10: during submission only the submitted answers whose `question_id`
matches a question of the assessment are graded and stored — an unknown id
is skipped silently, with no answer row and no error; the score denominator
`total_points` sums `points_possible` over the matched submitted answers
only; and `questions_answered` is the full submitted count, skipped answers
included. -/
theorem submit_assessment_matched_only (assessment_id user_id : ℕ)
    (a : Assessment) (questions : List Question)
    (submission : List AnswerSubmission) (user : User) (now : ℕ)
    (hst : a.status = "in_progress") :
    ∃ a' answers user',
      submit_assessment assessment_id user_id a questions submission user now
          = .ok (a', answers, user')
        ∧ answers = (matchedSubmissions questions submission).map
            (mkAnswer assessment_id user_id questions)
        ∧ a'.questions_answered = submission.length
        ∧ a'.score_percentage = some
            (if 0 < specTotalPoints questions submission then
              specEarnedPoints questions submission
                / specTotalPoints questions submission * 100
            else 0) := by
  obtain ⟨h1, h2, h3, h4⟩ :=
    processAnswer_spec assessment_id user_id questions submission initGrading
  have h1' : (submission.foldl
        (processAnswer assessment_id user_id questions) initGrading).answers
      = (matchedSubmissions questions submission).map
          (mkAnswer assessment_id user_id questions) := by
    rw [h1]; simp [initGrading]
  have h2' : (submission.foldl
        (processAnswer assessment_id user_id questions) initGrading).total_points
      = specTotalPoints questions submission := by
    rw [h2]; simp [initGrading]
  have h3' : (submission.foldl
        (processAnswer assessment_id user_id questions) initGrading).earned_points
      = specEarnedPoints questions submission := by
    rw [h3]; simp [initGrading]
  simp only [submit_assessment]
  rw [if_neg (by simp [hst])]
  exact ⟨_, _, _, rfl, h1', rfl, by rw [h2', h3']⟩

/-- Witness for C10 at a concrete input: one known question (2 points,
answered correctly) and one submitted answer with unknown id 9.  The unknown
answer is skipped: exactly one answer row is stored, the denominator is 2,
the score is 100, yet `questions_answered` counts both submitted answers. -/
theorem submit_assessment_matched_only_witness :
    (submitResultState 7 1 ⟨"in_progress", some 0, none, false, 0, 0, none, none⟩
        [⟨1, "A", 2⟩] [⟨1, some "A", none⟩, ⟨9, some "A", none⟩]
        ⟨0, 0, 0⟩ 60).2.1
      = [mkAnswer 7 1 [⟨1, "A", 2⟩] ⟨1, some "A", none⟩]
    ∧ (submitResultState 7 1 ⟨"in_progress", some 0, none, false, 0, 0, none, none⟩
        [⟨1, "A", 2⟩] [⟨1, some "A", none⟩, ⟨9, some "A", none⟩]
        ⟨0, 0, 0⟩ 60).1.questions_answered = 2
    ∧ (submitResultState 7 1 ⟨"in_progress", some 0, none, false, 0, 0, none, none⟩
        [⟨1, "A", 2⟩] [⟨1, some "A", none⟩, ⟨9, some "A", none⟩]
        ⟨0, 0, 0⟩ 60).1.score_percentage = some 100 := by
  obtain ⟨a', answers, user', heq, hans, hqa, hscore⟩ :=
    submit_assessment_matched_only 7 1
      ⟨"in_progress", some 0, none, false, 0, 0, none, none⟩
      [⟨1, "A", 2⟩] [⟨1, some "A", none⟩, ⟨9, some "A", none⟩] ⟨0, 0, 0⟩ 60 rfl
  have hmat : matchedSubmissions [⟨1, "A", 2⟩]
      [⟨1, some "A", none⟩, ⟨9, some "A", none⟩] = [⟨1, some "A", none⟩] := by
    decide
  have hfil : [(⟨1, some "A", none⟩ : AnswerSubmission), ⟨9, some "A", none⟩].filter
      (submissionCorrect [⟨1, "A", 2⟩]) = [⟨1, some "A", none⟩] := by
    decide
  have hp1 : questionPoints [⟨1, "A", 2⟩] 1 = 2 := by decide
  have htot : specTotalPoints [⟨1, "A", 2⟩]
      [⟨1, some "A", none⟩, ⟨9, some "A", none⟩] = 2 := by
    rw [specTotalPoints, hmat]
    simp [hp1]
  have hearn : specEarnedPoints [⟨1, "A", 2⟩]
      [⟨1, some "A", none⟩, ⟨9, some "A", none⟩] = 2 := by
    rw [specEarnedPoints, hfil]
    simp [hp1]
  have hrs : submitResultState 7 1
      ⟨"in_progress", some 0, none, false, 0, 0, none, none⟩
      [⟨1, "A", 2⟩] [⟨1, some "A", none⟩, ⟨9, some "A", none⟩] ⟨0, 0, 0⟩ 60
      = (a', answers, user') := by
    simp only [submitResultState, heq]
  refine ⟨?_, ?_, ?_⟩
  · rw [hrs]
    show answers = _
    rw [hans, hmat]
    simp
  · rw [hrs]
    show a'.questions_answered = 2
    rw [hqa]
    rfl
  · rw [hrs]
    show a'.score_percentage = some 100
    rw [hscore, htot, hearn]
    norm_num

/-- Counterexample to C1 as stated: question 1 has `correct_answer = ""`
(one point) and the submitted answer has `answer_text = None`,
`selected_option = ""`.  By the claim's rule the submitted text (the
selected option, since `answer_text` is absent) trims to `""` and equals the
trimmed correct answer, so claim-side `earned/total × 100 = 100`; but the
code requires the chosen text to be truthy (non-empty), grades the answer
incorrect, and stores `score_percentage = 0`. -/
theorem submit_score_claim_counterexample :
    (submitResultState 7 1 ⟨"in_progress", some 0, none, false, 0, 0, none, none⟩
        [⟨1, "", 1⟩] [⟨1, none, some ""⟩] ⟨0, 0, 0⟩ 60).1.score_percentage
      ≠ some (claimEarnedPoints [⟨1, "", 1⟩] [⟨1, none, some ""⟩]
          / specTotalPoints [⟨1, "", 1⟩] [⟨1, none, some ""⟩] * 100)
    ∧ (submitResultState 7 1 ⟨"in_progress", some 0, none, false, 0, 0, none, none⟩
        [⟨1, "", 1⟩] [⟨1, none, some ""⟩] ⟨0, 0, 0⟩ 60).1.score_percentage
      = some 0
    ∧ claimEarnedPoints [⟨1, "", 1⟩] [⟨1, none, some ""⟩] = 1
    ∧ specTotalPoints [⟨1, "", 1⟩] [⟨1, none, some ""⟩] = 1 := by
  have hp1 : questionPoints [⟨1, "", 1⟩] 1 = 1 := by decide
  have hmat : matchedSubmissions [⟨1, "", 1⟩] [⟨1, none, some ""⟩]
      = [⟨1, none, some ""⟩] := by decide
  have hclaim : [(⟨1, none, some ""⟩ : AnswerSubmission)].filter
      (claimSubmissionCorrect [⟨1, "", 1⟩]) = [⟨1, none, some ""⟩] := by decide
  have hcode : [(⟨1, none, some ""⟩ : AnswerSubmission)].filter
      (submissionCorrect [⟨1, "", 1⟩]) = [] := by decide
  have htot : specTotalPoints [⟨1, "", 1⟩] [⟨1, none, some ""⟩] = 1 := by
    rw [specTotalPoints, hmat]
    simp [hp1]
  have hearnClaim : claimEarnedPoints [⟨1, "", 1⟩] [⟨1, none, some ""⟩] = 1 := by
    rw [claimEarnedPoints, hclaim]
    simp [hp1]
  have hearnCode : specEarnedPoints [⟨1, "", 1⟩] [⟨1, none, some ""⟩] = 0 := by
    rw [specEarnedPoints, hcode]
    simp
  obtain ⟨h1, h2, h3, h4⟩ :=
    processAnswer_spec 7 1 [⟨1, "", 1⟩] [⟨1, none, some ""⟩] initGrading
  have hscore : (submitResultState 7 1
      ⟨"in_progress", some 0, none, false, 0, 0, none, none⟩
      [⟨1, "", 1⟩] [⟨1, none, some ""⟩] ⟨0, 0, 0⟩ 60).1.score_percentage
      = some 0 := by
    rw [submitResultState]
    simp only [submit_assessment]
    rw [if_neg (by simp)]
    simp only []
    rw [h2, h3, hearnCode, htot, initGrading]
    norm_num
  refine ⟨?_, hscore, hearnClaim, htot⟩
  rw [hscore, hearnClaim, htot]
  norm_num

/-- C1 (amended): when an in-progress assessment is submitted and the graded
questions have total points > 0, the stored `score_percentage` equals
`earned_points / total_points × 100`, where `earned_points` sums
`points_possible` over exactly those submitted answers whose effective text —
`answer_text` if truthy (non-null, non-empty), otherwise `selected_option` —
is truthy and, trimmed and lowercased, equals the question's trimmed,
lowercased `correct_answer`; each such answer is stored marked correct with
`points_earned = points_possible`, and every other graded answer gets
`points_earned = 0`. -/
theorem submit_assessment_grading (assessment_id user_id : ℕ) (a : Assessment)
    (questions : List Question) (submission : List AnswerSubmission)
    (user : User) (now : ℕ) (hst : a.status = "in_progress")
    (hpos : 0 < specTotalPoints questions submission) :
    ∃ a' answers user',
      submit_assessment assessment_id user_id a questions submission user now
          = .ok (a', answers, user')
        ∧ a'.score_percentage = some
            (specEarnedPoints questions submission
              / specTotalPoints questions submission * 100)
        ∧ (∀ ans ∈ answers,
            ans.points_earned
              = if ans.is_correct then ans.points_possible else 0)
        ∧ (∀ ad ∈ submission, submissionCorrect questions ad = true ↔
            ∃ q, findQuestion questions ad.question_id = some q
              ∧ ∃ s, pyOr ad.answer_text ad.selected_option = some s ∧ s ≠ ""
                  ∧ pyLower (pyStrip s) = pyLower (pyStrip q.correct_answer)) := by
  obtain ⟨h1, h2, h3, h4⟩ :=
    processAnswer_spec assessment_id user_id questions submission initGrading
  have h1' : (submission.foldl
        (processAnswer assessment_id user_id questions) initGrading).answers
      = (matchedSubmissions questions submission).map
          (mkAnswer assessment_id user_id questions) := by
    rw [h1]; simp [initGrading]
  have h2' : (submission.foldl
        (processAnswer assessment_id user_id questions) initGrading).total_points
      = specTotalPoints questions submission := by
    rw [h2]; simp [initGrading]
  have h3' : (submission.foldl
        (processAnswer assessment_id user_id questions) initGrading).earned_points
      = specEarnedPoints questions submission := by
    rw [h3]; simp [initGrading]
  simp only [submit_assessment]
  rw [if_neg (by simp [hst])]
  refine ⟨_, _, _, rfl, ?_, ?_, ?_⟩
  · rw [h2', h3', if_pos hpos]
  · intro ans hans
    rw [h1'] at hans
    obtain ⟨ad, hmem, rfl⟩ := List.mem_map.mp hans
    simp [mkAnswer]
  · intro ad hmem
    simp only [submissionCorrect]
    cases hq : findQuestion questions ad.question_id with
    | none => simp
    | some q =>
      simp only [gradedCorrect]
      cases ho : pyOr ad.answer_text ad.selected_option with
      | none => simp
      | some s => simp

/-- Witness for the amended C1: questions "Paris" (2 pts) and "B" (1 pt);
submitted answers " PARIS " (correct up to trim/lowercase), "C" (wrong) and
one with unknown id 3.  Total = 3, earned = 2, stored score = 200/3. -/
theorem submit_assessment_grading_witness :
    (submitResultState 7 1 ⟨"in_progress", some 0, none, false, 0, 0, none, none⟩
        [⟨1, "Paris", 2⟩, ⟨2, "B", 1⟩]
        [⟨1, some " PARIS ", none⟩, ⟨2, none, some "C"⟩, ⟨3, some "B", none⟩]
        ⟨0, 0, 0⟩ 60).1.score_percentage = some (200 / 3)
    ∧ 0 < specTotalPoints [⟨1, "Paris", 2⟩, ⟨2, "B", 1⟩]
        [⟨1, some " PARIS ", none⟩, ⟨2, none, some "C"⟩, ⟨3, some "B", none⟩] := by
  have hmat : matchedSubmissions [⟨1, "Paris", 2⟩, ⟨2, "B", 1⟩]
      [⟨1, some " PARIS ", none⟩, ⟨2, none, some "C"⟩, ⟨3, some "B", none⟩]
      = [⟨1, some " PARIS ", none⟩, ⟨2, none, some "C"⟩] := by decide
  have hfil : [(⟨1, some " PARIS ", none⟩ : AnswerSubmission), ⟨2, none, some "C"⟩,
      ⟨3, some "B", none⟩].filter
      (submissionCorrect [⟨1, "Paris", 2⟩, ⟨2, "B", 1⟩])
      = [⟨1, some " PARIS ", none⟩] := by decide
  have hp1 : questionPoints [⟨1, "Paris", 2⟩, ⟨2, "B", 1⟩] 1 = 2 := by decide
  have hp2 : questionPoints [⟨1, "Paris", 2⟩, ⟨2, "B", 1⟩] 2 = 1 := by decide
  have htot : specTotalPoints [⟨1, "Paris", 2⟩, ⟨2, "B", 1⟩]
      [⟨1, some " PARIS ", none⟩, ⟨2, none, some "C"⟩, ⟨3, some "B", none⟩]
      = 3 := by
    rw [specTotalPoints, hmat]
    simp [hp1, hp2]
    norm_num
  have hearn : specEarnedPoints [⟨1, "Paris", 2⟩, ⟨2, "B", 1⟩]
      [⟨1, some " PARIS ", none⟩, ⟨2, none, some "C"⟩, ⟨3, some "B", none⟩]
      = 2 := by
    rw [specEarnedPoints, hfil]
    simp [hp1]
  have hpos : (0 : ℚ) < specTotalPoints [⟨1, "Paris", 2⟩, ⟨2, "B", 1⟩]
      [⟨1, some " PARIS ", none⟩, ⟨2, none, some "C"⟩, ⟨3, some "B", none⟩] := by
    rw [htot]; norm_num
  obtain ⟨a', answers, user', heq, hscore, hpe, hrule⟩ :=
    submit_assessment_grading 7 1
      ⟨"in_progress", some 0, none, false, 0, 0, none, none⟩
      [⟨1, "Paris", 2⟩, ⟨2, "B", 1⟩]
      [⟨1, some " PARIS ", none⟩, ⟨2, none, some "C"⟩, ⟨3, some "B", none⟩]
      ⟨0, 0, 0⟩ 60 rfl hpos
  refine ⟨?_, hpos⟩
  rw [submitResultState, heq]
  rw [hscore, htot, hearn]
  norm_num

end StudyBuddy
